import Mathlib

/-!
Verification development for the GSTR-2B to Tally converter (`main.py`).

The pipeline has three stages:
* `process_gstr2b_logic` (Extractor): flattens the raw filing into normalized
  invoice records;
* `generate_masters` (Ledger Planner): derives the deduplicated list of ledger
  accounts, mirroring `generate_masters_string` without the XML envelope;
* `generate_vouchers` (Voucher Builder): one balanced purchase voucher per
  invoice, mirroring `generate_vouchers_string` without the XML envelope.

Monetary values are embedded as exact rationals (the decimal literal value a
JSON number denotes); `Decimal` arithmetic on two-place values is exact, so
`r2`, sums and comparisons embed faithfully.  Python float `round` and
`Decimal.quantize(0)` (default context) are both round-half-to-even and are
embedded by `rhe`.
-/

namespace Gstr2b

/-- Round half away from zero to an integer: the behaviour of
`Decimal.quantize(..., rounding=ROUND_HALF_UP)`. -/
def roundHalfAway (q : ℚ) : ℤ :=
  if 0 ≤ q then ⌊q + 1/2⌋ else -⌊-q + 1/2⌋

/-- `r2` from `main.py`: quantize to two fractional digits, ties away from
zero (`Decimal(str(val)).quantize(Decimal("0.01"), rounding=ROUND_HALF_UP)`). -/
def r2 (q : ℚ) : ℚ :=
  (roundHalfAway (q * 100) : ℚ) / 100

/-- Round half to even to an integer: Python builtin `round` and
`Decimal.quantize(0)` under the default context. -/
def rhe (q : ℚ) : ℤ :=
  let f := ⌊q⌋
  let r := q - (f : ℚ)
  if r < 1/2 then f
  else if 1/2 < r then f + 1
  else if f % 2 = 0 then f else f + 1

/-- Rendering of a possibly absent string the way a Python f-string renders
`None`. -/
def pyStr (o : Option String) : String :=
  match o with
  | none => "None"
  | some s => s

/-- Raw invoice entry under a supplier (`inv` objects of the filing);
absent keys are modelled as `none`. -/
structure RawInv where
  dt : Option String
  inum : Option String
  txval : Option ℚ
  igst : Option ℚ
  cgst : Option ℚ
  sgst : Option ℚ
  val : Option ℚ
deriving DecidableEq

/-- A supplier group of the filing (`b2b` entries). -/
structure Supplier where
  trdnm : Option String
  ctin : Option String
  inv : List RawInv
deriving DecidableEq

/-- The raw filing: `data.rtnprd` and `data.docdata.b2b`. -/
structure RawFiling where
  rtnprd : Option String
  b2b : List Supplier
deriving DecidableEq

/-- A normalized invoice record, the dict built by `process_gstr2b_logic`. -/
structure Invoice where
  supplier_name : Option String
  supplier_gstin : Option String
  date : Option String
  invoice_number : Option String
  return_period : String
  taxable_value : ℚ
  igst_amount : ℚ
  cgst_amount : ℚ
  sgst_amount : ℚ
  total_invoice_value : ℚ
deriving DecidableEq

/-- Field mapping of one raw invoice, exactly the dict literal in
`process_gstr2b_logic` (numeric keys default to 0). -/
def normInv (rp : String) (s : Supplier) (i : RawInv) : Invoice :=
  { supplier_name := s.trdnm
    supplier_gstin := s.ctin
    date := i.dt
    invoice_number := i.inum
    return_period := rp
    taxable_value := i.txval.getD 0
    igst_amount := i.igst.getD 0
    cgst_amount := i.cgst.getD 0
    sgst_amount := i.sgst.getD 0
    total_invoice_value := i.val.getD 0 }

/-- The Extractor: the two nested append loops of `process_gstr2b_logic`. -/
def process_gstr2b_logic (raw : RawFiling) : List Invoice :=
  let rp := raw.rtnprd.getD "N/A"
  raw.b2b.foldl (fun acc s => s.inv.foldl (fun acc2 i => acc2 ++ [normInv rp s i]) acc) []

/-- A ledger master record as emitted by `create_ledger_elem` (its `name` is
the raw Python value, which may be `None` for an absent supplier name). -/
structure Ledger where
  name : Option String
  parent : String
  isBillwiseOn : String
  taxType : Option String
  gstDutyHead : Option String
deriving DecidableEq

/-- The names already created, in creation order. -/
def ledgerNames (acc : List Ledger) : List (Option String) :=
  acc.map Ledger.name

/-- `create_ledger_elem` of `generate_masters_string`: a no-op when `name` is
already in the created set, otherwise appends one ledger record. -/
def create_ledger_elem (acc : List Ledger) (name : Option String) (group : String)
    (isGst : Bool) (gstHead : Option String) : List Ledger :=
  if name ∈ ledgerNames acc then acc
  else acc ++ [{ name := name
                 parent := group
                 isBillwiseOn := if group = "Sundry Creditors" then "Yes" else "No"
                 taxType := if isGst then some "GST" else none
                 gstDutyHead := if isGst then gstHead else none }]

/-- The interstate rate of the Planner: `round((igst / taxable) * 100)`. -/
def interstateRate (inv : Invoice) : ℤ :=
  rhe (inv.igst_amount / inv.taxable_value * 100)

/-- The local rate of the Planner: `round(((cgst + sgst) / taxable) * 100)`. -/
def localRate (inv : Invoice) : ℤ :=
  rhe ((inv.cgst_amount + inv.sgst_amount) / inv.taxable_value * 100)

/-- The per-invoice body of the Planner loop in `generate_masters_string`:
supplier ledger, then the interstate branch, then the local branch. -/
def planInvoice (acc : List Ledger) (inv : Invoice) : List Ledger :=
  let acc1 := create_ledger_elem acc inv.supplier_name "Sundry Creditors" false none
  let acc2 :=
    if inv.igst_amount > 0 ∧ inv.taxable_value > 0 then
      create_ledger_elem
        (create_ledger_elem acc1
          (some ("Interstate Purchase " ++ toString (interstateRate inv) ++ "%"))
          "Purchase Accounts" false none)
        (some ("Input IGST " ++ toString (interstateRate inv) ++ "%"))
        "Duties & Taxes" true (some "Integrated Tax")
    else acc1
  if (inv.cgst_amount > 0 ∨ inv.sgst_amount > 0) ∧ inv.taxable_value > 0 then
    create_ledger_elem
      (create_ledger_elem
        (create_ledger_elem acc2
          (some ("Local Purchase " ++ toString (localRate inv) ++ "%"))
          "Purchase Accounts" false none)
        (some ("Input CGST " ++ toString (Int.fdiv (localRate inv) 2) ++ "%"))
        "Duties & Taxes" true (some "Central Tax"))
      (some ("Input SGST " ++ toString (Int.fdiv (localRate inv) 2) ++ "%"))
      "Duties & Taxes" true (some "State Tax")
  else acc2

/-- The Ledger Planner: `generate_masters_string` reduced to the list of
ledger records it creates (the fixed envelope carries no logic). -/
def generate_masters (invoices : List Invoice) : List Ledger :=
  invoices.foldl planInvoice
    (create_ledger_elem [] (some "Round Off") "Indirect Expenses" false none)

/-- One `ALLLEDGERENTRIES.LIST` block of a voucher. -/
structure VoucherLine where
  ledgerName : String
  isDeemedPositive : String
  amount : ℚ
  billAlloc : Option (String × ℚ)
deriving DecidableEq

/-- One `VOUCHER` block of the vouchers document. -/
structure Voucher where
  date : String
  referenceDate : String
  reference : String
  voucherNumber : String
  partyLedgerName : String
  lines : List VoucherLine
deriving DecidableEq

/-- Leap-year rule used by `datetime`. -/
def leapYear (y : Nat) : Bool :=
  y % 4 = 0 && (y % 100 != 0 || y % 400 = 0)

/-- Days in a month, as validated by `datetime`. -/
def daysInMonth (y m : Nat) : Nat :=
  if m = 2 then (if leapYear y then 29 else 28)
  else if m = 4 ∨ m = 6 ∨ m = 9 ∨ m = 11 then 30
  else 31

/-- Splits a character list at every dash. -/
def splitDashAux : List Char → List Char → List (List Char)
  | [], cur => [cur.reverse]
  | c :: rest, cur =>
      if c = '-' then cur.reverse :: splitDashAux rest []
      else splitDashAux rest (c :: cur)

/-- Splits a string at every dash. -/
def splitDash (s : String) : List (List Char) :=
  splitDashAux s.toList []

/-- Decimal value of a digit list. -/
def digitsVal (l : List Char) : Nat :=
  l.foldl (fun a c => a * 10 + (c.toNat - 48)) 0

/-- All characters are decimal digits. -/
def allDigits (l : List Char) : Bool :=
  l.all fun c => c.isDigit

/-- Model of `datetime.strptime(s, "%d-%m-%Y")`: three dash-separated decimal
fields, day and month of one or two digits, year of exactly four digits, with
full calendar validation (month 1..12, day within the month, year at least 1).
Returns `(day, month, year)`; `none` is the `ValueError` case. -/
def parseDate (s : String) : Option (Nat × Nat × Nat) :=
  match splitDash s with
  | [ds, ms, ys] =>
    if allDigits ds ∧ allDigits ms ∧ allDigits ys ∧
        1 ≤ ds.length ∧ ds.length ≤ 2 ∧ 1 ≤ ms.length ∧ ms.length ≤ 2 ∧
        ys.length = 4 then
      let d := digitsVal ds
      let m := digitsVal ms
      let y := digitsVal ys
      if 1 ≤ y ∧ 1 ≤ m ∧ m ≤ 12 ∧ 1 ≤ d ∧ d ≤ daysInMonth y m then
        some (d, m, y)
      else none
    else none
  | _ => none

/-- An absent date field fails `strptime` just like a malformed one. -/
def parseDateField (o : Option String) : Option (Nat × Nat × Nat) :=
  match o with
  | none => none
  | some s => parseDate s

/-- Zero-pad to two digits. -/
def pad2 (n : Nat) : String :=
  if n < 10 then "0" ++ toString n else toString n

/-- Zero-pad to four digits. -/
def pad4 (n : Nat) : String :=
  if n < 10 then "000" ++ toString n
  else if n < 100 then "00" ++ toString n
  else if n < 1000 then "0" ++ toString n
  else toString n

/-- Model of `strftime("%Y%m%d")`. -/
def formatYMD (y m d : Nat) : String :=
  pad4 y ++ pad2 m ++ pad2 d

/-- The tax rate of the Builder: int of quantize(0) on tax_total / taxable * 100,
guarded by `if taxable != 0`, on the `r2`-rounded amounts. -/
def vchRate (inv : Invoice) : ℤ :=
  let taxable := r2 inv.taxable_value
  let taxTotal := r2 inv.igst_amount + r2 inv.cgst_amount + r2 inv.sgst_amount
  if taxable ≠ 0 then rhe (taxTotal / taxable * 100) else 0

/-- The purchase ledger selection of the Builder (branches on rounded igst). -/
def purchase_ledger (inv : Invoice) : String :=
  if r2 inv.igst_amount > 0 then
    "Interstate Purchase " ++ toString (vchRate inv) ++ "%"
  else
    "Local Purchase " ++ toString (vchRate inv) ++ "%"

/-- `debit_calc = taxable + (igst + cgst + sgst)` on rounded amounts. -/
def debit_calc (inv : Invoice) : ℚ :=
  r2 inv.taxable_value + (r2 inv.igst_amount + r2 inv.cgst_amount + r2 inv.sgst_amount)

/-- The input-tax entry lines: one IGST line when rounded igst is positive,
otherwise a CGST and an SGST line with half-rate labels. -/
def taxLines (inv : Invoice) : List VoucherLine :=
  if r2 inv.igst_amount > 0 then
    [{ ledgerName := "Input IGST " ++ toString (vchRate inv) ++ "%"
       isDeemedPositive := "Yes"
       amount := -(r2 inv.igst_amount)
       billAlloc := none }]
  else
    [{ ledgerName := "Input CGST " ++ toString (Int.fdiv (vchRate inv) 2) ++ "%"
       isDeemedPositive := "Yes"
       amount := -(r2 inv.cgst_amount)
       billAlloc := none },
     { ledgerName := "Input SGST " ++ toString (Int.fdiv (vchRate inv) 2) ++ "%"
       isDeemedPositive := "Yes"
       amount := -(r2 inv.sgst_amount)
       billAlloc := none }]

/-- The balancing block: when `debit_calc != invoice_total` a Round Off line
for `-diff` with `ISDEEMEDPOSITIVE` set to No exactly when `diff > 0`. -/
def roundOffLines (inv : Invoice) : List VoucherLine :=
  if debit_calc inv ≠ r2 inv.total_invoice_value then
    let diff := r2 inv.total_invoice_value - debit_calc inv
    [{ ledgerName := "Round Off"
       isDeemedPositive := if diff > 0 then "No" else "Yes"
       amount := -diff
       billAlloc := none }]
  else []

/-- One iteration of the voucher loop in `generate_vouchers_string`: `none`
is the `strptime` failure case blowing up the whole call. -/
def buildVoucher (inv : Invoice) : Option Voucher :=
  match parseDateField inv.date with
  | none => none
  | some (d, m, y) =>
    let vchDate := formatYMD y m d
    some
      { date := vchDate
        referenceDate := vchDate
        reference := pyStr inv.invoice_number
        voucherNumber := pyStr inv.invoice_number
        partyLedgerName := pyStr inv.supplier_name
        lines :=
          { ledgerName := pyStr inv.supplier_name
            isDeemedPositive := "No"
            amount := r2 inv.total_invoice_value
            billAlloc := some (pyStr inv.invoice_number, r2 inv.total_invoice_value) } ::
          { ledgerName := purchase_ledger inv
            isDeemedPositive := "Yes"
            amount := -(r2 inv.taxable_value)
            billAlloc := none } ::
          (taxLines inv ++ roundOffLines inv) }

/-- The Voucher Builder: `generate_vouchers_string` reduced to the list of
voucher blocks; a date failure anywhere yields `none` (the exception aborts
the whole conversion, discarding all accumulated output). -/
def generate_vouchers : List Invoice → Option (List Voucher)
  | [] => some []
  | inv :: rest =>
    match buildVoucher inv with
    | none => none
    | some v =>
      match generate_vouchers rest with
      | none => none
      | some vs => some (v :: vs)

/-- The ledger names one invoice asks the Planner to register, in
registration order. -/
def reqNames (inv : Invoice) : List (Option String) :=
  inv.supplier_name ::
    ((if inv.igst_amount > 0 ∧ inv.taxable_value > 0 then
        [some ("Interstate Purchase " ++ toString (interstateRate inv) ++ "%"),
         some ("Input IGST " ++ toString (interstateRate inv) ++ "%")]
      else []) ++
     (if (inv.cgst_amount > 0 ∨ inv.sgst_amount > 0) ∧ inv.taxable_value > 0 then
        [some ("Local Purchase " ++ toString (localRate inv) ++ "%"),
         some ("Input CGST " ++ toString (Int.fdiv (localRate inv) 2) ++ "%"),
         some ("Input SGST " ++ toString (Int.fdiv (localRate inv) 2) ++ "%")]
      else []))

/-- A tax-mixed invoice: igst together with cgst and sgst (counterexample
input for the balance invariant). -/
def invMixA : Invoice :=
  { supplier_name := some "Acme Traders", supplier_gstin := some "29ABCDE1234F1Z5",
    date := some "15-01-2024", invoice_number := some "INV-1",
    return_period := "012024",
    taxable_value := 100, igst_amount := 18, cgst_amount := 9, sgst_amount := 9,
    total_invoice_value := 118 }

/-- A pure interstate invoice (witness input for the balance invariant). -/
def invPureA : Invoice :=
  { supplier_name := some "Acme Traders", supplier_gstin := some "29ABCDE1234F1Z5",
    date := some "15-01-2024", invoice_number := some "INV-2",
    return_period := "012024",
    taxable_value := 100, igst_amount := 18, cgst_amount := 0, sgst_amount := 0,
    total_invoice_value := 118 }

/-- A tax-mixed invoice for the branch-exclusivity claim. -/
def invMixB : Invoice :=
  { supplier_name := some "Beta Supplies", supplier_gstin := some "27ABCDE1234F1Z5",
    date := some "02-02-2024", invoice_number := some "INV-3",
    return_period := "022024",
    taxable_value := 100, igst_amount := 18, cgst_amount := 9, sgst_amount := 9,
    total_invoice_value := 118 }

/-- A tax-mixed invoice for the ledger-name agreement claim: the Builder
derives 18 percent from the combined taxes, the Planner 9 percent per type. -/
def invMixC : Invoice :=
  { supplier_name := some "Gamma Mills", supplier_gstin := some "24ABCDE1234F1Z5",
    date := some "03-03-2024", invoice_number := some "INV-4",
    return_period := "032024",
    taxable_value := 100, igst_amount := 9, cgst_amount := 9, sgst_amount := 0,
    total_invoice_value := 118 }

/-- A pure interstate invoice with cent-exact amounts (witness input for the
ledger-name agreement claim). -/
def invPureC : Invoice :=
  { supplier_name := some "Gamma Mills", supplier_gstin := some "24ABCDE1234F1Z5",
    date := some "03-03-2024", invoice_number := some "INV-5",
    return_period := "032024",
    taxable_value := 1000, igst_amount := 180, cgst_amount := 0, sgst_amount := 0,
    total_invoice_value := 1180 }

/-- An invoice with zero taxable value (witness input for the guard claim). -/
def invZeroTaxable : Invoice :=
  { supplier_name := some "Delta Corp", supplier_gstin := some "07ABCDE1234F1Z5",
    date := some "04-04-2024", invoice_number := some "INV-6",
    return_period := "042024",
    taxable_value := 0, igst_amount := 0, cgst_amount := 0, sgst_amount := 0,
    total_invoice_value := 0 }

/-- An invoice whose date does not match the day-month-year pattern. -/
def invBadDate : Invoice :=
  { supplier_name := some "Epsilon Ltd", supplier_gstin := some "33ABCDE1234F1Z5",
    date := some "2024-05-05", invoice_number := some "INV-7",
    return_period := "052024",
    taxable_value := 100, igst_amount := 18, cgst_amount := 0, sgst_amount := 0,
    total_invoice_value := 118 }

/-- A well-formed invoice placed before the bad-date invoice in the witness
list for the abort claim. -/
def invGoodDate : Invoice :=
  { supplier_name := some "Epsilon Ltd", supplier_gstin := some "33ABCDE1234F1Z5",
    date := some "05-05-2024", invoice_number := some "INV-8",
    return_period := "052024",
    taxable_value := 100, igst_amount := 18, cgst_amount := 0, sgst_amount := 0,
    total_invoice_value := 118 }

/-- An invoice whose stated total exceeds its components by one cent, so a
Round Off line is required (Round Off claim inputs). -/
def invResidue : Invoice :=
  { supplier_name := some "Zeta Goods", supplier_gstin := some "19ABCDE1234F1Z5",
    date := some "06-06-2024", invoice_number := some "INV-9",
    return_period := "062024",
    taxable_value := 100, igst_amount := 18, cgst_amount := 0, sgst_amount := 0,
    total_invoice_value := 11801/100 }

/-- The voucher the Builder produces for the residue invoice. -/
def vchResidue : Voucher :=
  (buildVoucher invResidue).getD
    { date := "", referenceDate := "", reference := "", voucherNumber := "",
      partyLedgerName := "", lines := [] }

/-- An invoice bearing no tax at all (input for the zero-tax lines claim). -/
def invNoTax : Invoice :=
  { supplier_name := some "Eta Stores", supplier_gstin := some "06ABCDE1234F1Z5",
    date := some "07-07-2024", invoice_number := some "INV-10",
    return_period := "072024",
    taxable_value := 250, igst_amount := 0, cgst_amount := 0, sgst_amount := 0,
    total_invoice_value := 250 }

/-- A raw filing with two suppliers and a duplicated invoice number (witness
input for the order-preservation claim). -/
def rawFilingW : RawFiling :=
  { rtnprd := some "012024",
    b2b :=
      [{ trdnm := some "Alpha Co", ctin := some "29AAAAA0000A1Z5",
         inv :=
           [{ dt := some "01-01-2024", inum := some "X1", txval := some 100,
              igst := some 18, cgst := none, sgst := none, val := some 118 },
            { dt := some "02-01-2024", inum := some "X1", txval := some 200,
              igst := none, cgst := some 18, sgst := some 18, val := some 236 }] },
       { trdnm := some "Beta Co", ctin := some "27BBBBB0000B1Z5",
         inv :=
           [{ dt := some "03-01-2024", inum := some "X1", txval := some 50,
              igst := some 9, cgst := none, sgst := none, val := some 59 }] }] }

/-- The Extractor output on the witness filing. -/
def invoicesW : List Invoice :=
  process_gstr2b_logic rawFilingW

/-- The Builder output on the witness filing. -/
def vouchersW : List Voucher :=
  (generate_vouchers invoicesW).getD []

/-- The voucher produced for the pure interstate witness invoice. -/
def vchPureA : Voucher :=
  (buildVoucher invPureA).getD
    { date := "", referenceDate := "", reference := "", voucherNumber := "",
      partyLedgerName := "", lines := [] }

/-! ### Rounding lemmas -/

theorem roundHalfAway_nearest (x : ℚ) : |x - (roundHalfAway x : ℚ)| ≤ 1/2 := by
  rw [roundHalfAway]
  split_ifs with h
  · have h1 : ((⌊x + 1/2⌋ : ℤ) : ℚ) ≤ x + 1/2 := Int.floor_le _
    have h2 : x + 1/2 < (⌊x + 1/2⌋ : ℚ) + 1 := Int.lt_floor_add_one _
    rw [abs_le]
    constructor <;> linarith
  · have h1 : ((⌊-x + 1/2⌋ : ℤ) : ℚ) ≤ -x + 1/2 := Int.floor_le _
    have h2 : -x + 1/2 < (⌊-x + 1/2⌋ : ℚ) + 1 := Int.lt_floor_add_one _
    rw [abs_le]
    push_cast
    constructor <;> linarith

theorem rhe_zero : rhe 0 = 0 := by norm_num [rhe]

theorem r2_zero : r2 0 = 0 := by norm_num [r2, roundHalfAway]

/-! ### Ledger Planner lemmas -/

theorem create_ledger_elem_of_mem {acc : List Ledger} {nm : Option String}
    {g : String} {i : Bool} {gh : Option String} (hm : nm ∈ ledgerNames acc) :
    create_ledger_elem acc nm g i gh = acc := by
  rw [create_ledger_elem, if_pos hm]

theorem mem_ledgerNames_create (n : Option String) (acc : List Ledger)
    (nm : Option String) (g : String) (i : Bool) (gh : Option String) :
    n ∈ ledgerNames (create_ledger_elem acc nm g i gh) ↔
      n ∈ ledgerNames acc ∨ n = nm := by
  by_cases hm : nm ∈ ledgerNames acc
  · rw [create_ledger_elem_of_mem hm]
    constructor
    · exact Or.inl
    · rintro (h | rfl)
      · exact h
      · exact hm
  · rw [create_ledger_elem, if_neg hm]
    simp [ledgerNames]

theorem mem_ledgerNames_planInvoice (n : Option String) (acc : List Ledger)
    (inv : Invoice) :
    n ∈ ledgerNames (planInvoice acc inv) ↔
      n ∈ ledgerNames acc ∨ n ∈ reqNames inv := by
  rw [planInvoice, reqNames]
  split_ifs with h1 h2 h2 <;>
    simp only [mem_ledgerNames_create, List.mem_cons, List.mem_append,
      List.mem_singleton, List.mem_nil_iff, List.not_mem_nil] <;> tauto

theorem planInvoice_of_subset {acc : List Ledger} {inv : Invoice}
    (h : ∀ n ∈ reqNames inv, n ∈ ledgerNames acc) :
    planInvoice acc inv = acc := by
  have hsup : inv.supplier_name ∈ ledgerNames acc :=
    h _ (by simp [reqNames])
  by_cases h1 : inv.igst_amount > 0 ∧ inv.taxable_value > 0 <;>
    by_cases h2 : (inv.cgst_amount > 0 ∨ inv.sgst_amount > 0) ∧ inv.taxable_value > 0
  · have hIP := h _ (show some ("Interstate Purchase " ++ toString (interstateRate inv) ++ "%") ∈
      reqNames inv by simp [reqNames, h1, h2])
    have hIG := h _ (show some ("Input IGST " ++ toString (interstateRate inv) ++ "%") ∈
      reqNames inv by simp [reqNames, h1, h2])
    have hLP := h _ (show some ("Local Purchase " ++ toString (localRate inv) ++ "%") ∈
      reqNames inv by simp [reqNames, h1, h2])
    have hCG := h _ (show some ("Input CGST " ++ toString (Int.fdiv (localRate inv) 2) ++ "%") ∈
      reqNames inv by simp [reqNames, h1, h2])
    have hSG := h _ (show some ("Input SGST " ++ toString (Int.fdiv (localRate inv) 2) ++ "%") ∈
      reqNames inv by simp [reqNames, h1, h2])
    simp only [planInvoice, if_pos h1, if_pos h2]
    rw [create_ledger_elem_of_mem hsup, create_ledger_elem_of_mem hIP,
        create_ledger_elem_of_mem hIG, create_ledger_elem_of_mem hLP,
        create_ledger_elem_of_mem hCG, create_ledger_elem_of_mem hSG]
  · have hIP := h _ (show some ("Interstate Purchase " ++ toString (interstateRate inv) ++ "%") ∈
      reqNames inv by simp [reqNames, h1, h2])
    have hIG := h _ (show some ("Input IGST " ++ toString (interstateRate inv) ++ "%") ∈
      reqNames inv by simp [reqNames, h1, h2])
    simp only [planInvoice, if_pos h1, if_neg h2]
    rw [create_ledger_elem_of_mem hsup, create_ledger_elem_of_mem hIP,
        create_ledger_elem_of_mem hIG]
  · have hLP := h _ (show some ("Local Purchase " ++ toString (localRate inv) ++ "%") ∈
      reqNames inv by simp [reqNames, h1, h2])
    have hCG := h _ (show some ("Input CGST " ++ toString (Int.fdiv (localRate inv) 2) ++ "%") ∈
      reqNames inv by simp [reqNames, h1, h2])
    have hSG := h _ (show some ("Input SGST " ++ toString (Int.fdiv (localRate inv) 2) ++ "%") ∈
      reqNames inv by simp [reqNames, h1, h2])
    simp only [planInvoice, if_neg h1, if_pos h2]
    rw [create_ledger_elem_of_mem hsup, create_ledger_elem_of_mem hLP,
        create_ledger_elem_of_mem hCG, create_ledger_elem_of_mem hSG]
  · simp only [planInvoice, if_neg h1, if_neg h2]
    rw [create_ledger_elem_of_mem hsup]

theorem ledgerNames_foldl_subset (l : List Invoice) (acc : List Ledger)
    (n : Option String) (hn : n ∈ ledgerNames acc) :
    n ∈ ledgerNames (List.foldl planInvoice acc l) := by
  induction l generalizing acc with
  | nil => exact hn
  | cons hd tl ih =>
      exact ih _ ((mem_ledgerNames_planInvoice n acc hd).mpr (Or.inl hn))

theorem reqNames_subset_foldl {l : List Invoice} {inv : Invoice}
    (hinv : inv ∈ l) (acc : List Ledger) :
    ∀ n ∈ reqNames inv, n ∈ ledgerNames (List.foldl planInvoice acc l) := by
  induction l generalizing acc with
  | nil => cases hinv
  | cons hd tl ih =>
      intro n hn
      rcases List.mem_cons.mp hinv with rfl | htl
      · exact ledgerNames_foldl_subset tl _ n
          ((mem_ledgerNames_planInvoice n acc inv).mpr (Or.inr hn))
      · exact ih htl _ n hn

theorem foldl_planInvoice_fixed {l : List Invoice} {acc : List Ledger}
    (h : ∀ inv ∈ l, ∀ n ∈ reqNames inv, n ∈ ledgerNames acc) :
    List.foldl planInvoice acc l = acc := by
  induction l with
  | nil => rfl
  | cons hd tl ih =>
      rw [List.foldl_cons, planInvoice_of_subset (h hd (by simp))]
      exact ih fun inv hi => h inv (by simp [hi])

theorem nodup_ledgerNames_create {acc : List Ledger}
    (h : (ledgerNames acc).Nodup) (nm : Option String) (g : String)
    (i : Bool) (gh : Option String) :
    (ledgerNames (create_ledger_elem acc nm g i gh)).Nodup := by
  by_cases hm : nm ∈ ledgerNames acc
  · rw [create_ledger_elem_of_mem hm]; exact h
  · rw [create_ledger_elem, if_neg hm]
    have : ledgerNames (acc ++
        [{ name := nm, parent := g,
           isBillwiseOn := if g = "Sundry Creditors" then "Yes" else "No",
           taxType := if i then some "GST" else none,
           gstDutyHead := if i then gh else none }]) = ledgerNames acc ++ [nm] := by
      simp [ledgerNames]
    rw [this, List.nodup_append]
    exact ⟨h, List.nodup_singleton nm, by simpa using hm⟩

theorem nodup_ledgerNames_planInvoice {acc : List Ledger}
    (h : (ledgerNames acc).Nodup) (inv : Invoice) :
    (ledgerNames (planInvoice acc inv)).Nodup := by
  rw [planInvoice]
  split_ifs <;> repeat apply nodup_ledgerNames_create
  all_goals exact h

theorem nodup_ledgerNames_foldl {acc : List Ledger}
    (h : (ledgerNames acc).Nodup) (l : List Invoice) :
    (ledgerNames (List.foldl planInvoice acc l)).Nodup := by
  induction l generalizing acc with
  | nil => exact h
  | cons hd tl ih => exact ih (nodup_ledgerNames_planInvoice h hd)

/-- C4: ledger planning is idempotent and deduplicating: planning the
duplicated invoice sequence produces exactly the same ledger list in the same
order as planning it once, and the ledger names of one run are pairwise
distinct, so each distinct name yields exactly one ledger record. -/
theorem planner_idempotent_dedup :
    (∀ invoices : List Invoice,
      generate_masters (invoices ++ invoices) = generate_masters invoices) ∧
    (∀ invoices : List Invoice,
      (ledgerNames (generate_masters invoices)).Nodup) := by
  constructor
  · intro invoices
    rw [generate_masters, generate_masters, List.foldl_append]
    exact foldl_planInvoice_fixed fun inv hi => reqNames_subset_foldl hi _
  · intro invoices
    apply nodup_ledgerNames_foldl
    apply nodup_ledgerNames_create
    simp [ledgerNames]

/-- C2 (amended): the interstate and the local step of the Ledger Planner are
independent if-statements, not mutually exclusive: the local family is
registered whenever cgst or sgst is positive and taxable is positive,
regardless of the interstate condition, and the interstate family is
registered whenever its own condition holds; an invoice satisfying both
conditions has both families registered. -/
theorem masters_branches_independent :
    ∀ (invoices : List Invoice) (inv : Invoice), inv ∈ invoices →
      ((inv.cgst_amount > 0 ∨ inv.sgst_amount > 0) ∧ inv.taxable_value > 0 →
        some ("Local Purchase " ++ toString (localRate inv) ++ "%") ∈
          ledgerNames (generate_masters invoices) ∧
        some ("Input CGST " ++ toString (Int.fdiv (localRate inv) 2) ++ "%") ∈
          ledgerNames (generate_masters invoices) ∧
        some ("Input SGST " ++ toString (Int.fdiv (localRate inv) 2) ++ "%") ∈
          ledgerNames (generate_masters invoices)) ∧
      (inv.igst_amount > 0 ∧ inv.taxable_value > 0 →
        some ("Interstate Purchase " ++ toString (interstateRate inv) ++ "%") ∈
          ledgerNames (generate_masters invoices) ∧
        some ("Input IGST " ++ toString (interstateRate inv) ++ "%") ∈
          ledgerNames (generate_masters invoices)) := by
  intro invoices inv hmem
  constructor
  · intro h2
    rw [generate_masters]
    refine ⟨?_, ?_, ?_⟩ <;>
      exact reqNames_subset_foldl hmem _ _ (by simp [reqNames, h2])
  · intro h1
    rw [generate_masters]
    constructor <;>
      exact reqNames_subset_foldl hmem _ _ (by simp [reqNames, h1])

unseal Rat.mul Rat.add Rat.inv Rat.sub in
/-- C2 (counterexample): a tax-mixed invoice satisfies the interstate
condition, yet the Planner also registers the full Local family for it, so
the local step does not run only when the interstate condition fails. -/
theorem masters_branch_overlap_counterexample :
    (invMixB.igst_amount > 0 ∧ invMixB.taxable_value > 0) ∧
    some "Interstate Purchase 18%" ∈ ledgerNames (generate_masters [invMixB]) ∧
    some "Local Purchase 18%" ∈ ledgerNames (generate_masters [invMixB]) ∧
    some "Input CGST 9%" ∈ ledgerNames (generate_masters [invMixB]) ∧
    some "Input SGST 9%" ∈ ledgerNames (generate_masters [invMixB]) := by
  decide

unseal Rat.mul Rat.add Rat.inv Rat.sub in
/-- C2 (witness): the amended theorem applied to the mixed invoice. -/
theorem masters_branches_independent_witness :
    some ("Local Purchase " ++ toString (localRate invMixB) ++ "%") ∈
      ledgerNames (generate_masters [invMixB]) ∧
    some ("Interstate Purchase " ++ toString (interstateRate invMixB) ++ "%") ∈
      ledgerNames (generate_masters [invMixB]) :=
  ⟨((masters_branches_independent [invMixB] invMixB (by simp)).1 (by decide)).1,
   ((masters_branches_independent [invMixB] invMixB (by simp)).2 (by decide)).1⟩

/-- C3 (amended): for an invoice whose monetary fields are already cent-exact
(fixed by r2), with positive taxable value and exactly one tax family present
(pure interstate or pure local), the purchase ledger name the Builder selects
is a name the Planner registered for that invoice. -/
theorem purchase_ledger_agreement :
    ∀ (invoices : List Invoice) (inv : Invoice), inv ∈ invoices →
      r2 inv.taxable_value = inv.taxable_value →
      r2 inv.igst_amount = inv.igst_amount →
      r2 inv.cgst_amount = inv.cgst_amount →
      r2 inv.sgst_amount = inv.sgst_amount →
      inv.taxable_value > 0 →
      ((inv.igst_amount > 0 ∧ inv.cgst_amount = 0 ∧ inv.sgst_amount = 0) ∨
       (inv.igst_amount = 0 ∧ (inv.cgst_amount > 0 ∨ inv.sgst_amount > 0))) →
      some (purchase_ledger inv) ∈ ledgerNames (generate_masters invoices) := by
  intro invoices inv hm ht hi hc hs htpos hcase
  have htne : r2 inv.taxable_value ≠ 0 := by rw [ht]; exact ne_of_gt htpos
  rcases hcase with ⟨hig, hcg, hsg⟩ | ⟨hig, hlocal⟩
  · have hrate : vchRate inv = interstateRate inv := by
      rw [vchRate, interstateRate]
      simp only [if_pos htne]
      rw [hi, hc, hs, hcg, hsg, ht, add_zero, add_zero]
    have hpl : purchase_ledger inv =
        "Interstate Purchase " ++ toString (interstateRate inv) ++ "%" := by
      rw [purchase_ledger, if_pos (by rw [hi]; exact hig), hrate]
    rw [hpl, generate_masters]
    exact reqNames_subset_foldl hm _ _ (by simp [reqNames, hig, htpos])
  · have hrate : vchRate inv = localRate inv := by
      rw [vchRate, localRate]
      simp only [if_pos htne]
      rw [hi, hc, hs, hig, ht, zero_add]
    have hpl : purchase_ledger inv =
        "Local Purchase " ++ toString (localRate inv) ++ "%" := by
      rw [purchase_ledger, if_neg (by rw [hi, hig]; exact lt_irrefl 0), hrate]
    rw [hpl, generate_masters]
    exact reqNames_subset_foldl hm _ _ (by simp [reqNames, hlocal, htpos])

unseal Rat.mul Rat.add Rat.inv Rat.sub in
/-- C3 (counterexample): on a tax-mixed invoice the Builder selects
Interstate Purchase 18 percent, a ledger name the Planner never created for
that invoice (the Planner derived 9 percent per tax type). -/
theorem purchase_ledger_mismatch_counterexample :
    purchase_ledger invMixC = "Interstate Purchase 18%" ∧
    some (purchase_ledger invMixC) ∉ ledgerNames (generate_masters [invMixC]) := by
  decide

unseal Rat.mul Rat.add Rat.inv Rat.sub in
/-- C3 (witness): the amended theorem applied to a cent-exact pure
interstate invoice. -/
theorem purchase_ledger_agreement_witness :
    some (purchase_ledger invPureC) ∈ ledgerNames (generate_masters [invPureC]) :=
  purchase_ledger_agreement [invPureC] invPureC (by simp) (by decide) (by decide)
    (by decide) (by decide) (by decide) (by decide)

/-! ### Voucher Builder lemmas -/

theorem buildVoucher_lines {inv : Invoice} {v : Voucher}
    (h : buildVoucher inv = some v) :
    v.lines =
      { ledgerName := pyStr inv.supplier_name, isDeemedPositive := "No",
        amount := r2 inv.total_invoice_value,
        billAlloc := some (pyStr inv.invoice_number, r2 inv.total_invoice_value) } ::
      { ledgerName := purchase_ledger inv, isDeemedPositive := "Yes",
        amount := -(r2 inv.taxable_value), billAlloc := none } ::
      (taxLines inv ++ roundOffLines inv) := by
  rw [buildVoucher] at h
  cases hp : parseDateField inv.date with
  | none => rw [hp] at h; exact Option.noConfusion h
  | some dmy =>
      obtain ⟨d, m, y⟩ := dmy
      rw [hp] at h
      obtain rfl := Option.some.inj h
      rfl

theorem buildVoucher_voucherNumber {inv : Invoice} {v : Voucher}
    (h : buildVoucher inv = some v) :
    v.voucherNumber = pyStr inv.invoice_number := by
  rw [buildVoucher] at h
  cases hp : parseDateField inv.date with
  | none => rw [hp] at h; exact Option.noConfusion h
  | some dmy =>
      obtain ⟨d, m, y⟩ := dmy
      rw [hp] at h
      obtain rfl := Option.some.inj h
      rfl

theorem taxLines_amount_sum (inv : Invoice) :
    ((taxLines inv).map VoucherLine.amount).sum =
      if r2 inv.igst_amount > 0 then -(r2 inv.igst_amount)
      else -(r2 inv.cgst_amount) - r2 inv.sgst_amount := by
  rw [taxLines]
  split_ifs
  · simp
  · simp
    ring

theorem roundOffLines_amount_sum (inv : Invoice) :
    ((roundOffLines inv).map VoucherLine.amount).sum =
      if debit_calc inv = r2 inv.total_invoice_value then 0
      else debit_calc inv - r2 inv.total_invoice_value := by
  by_cases h : debit_calc inv = r2 inv.total_invoice_value
  · rw [roundOffLines, if_neg (not_not_intro h), if_pos h]
    rfl
  · rw [roundOffLines, if_pos h, if_neg h]
    simp

/-- C1 (amended): for every invoice whose date parses and whose rounded tax
amounts are not mixed (when the rounded igst is positive the rounded cgst
and sgst sum to zero, and otherwise the rounded igst is exactly zero), the
sum of the signed line amounts of the produced voucher is exactly zero,
including when a Round Off line is appended; a tax-mixed invoice instead
leaves the unbooked tax amounts as residue. -/
theorem voucher_balance :
    ∀ (inv : Invoice) (v : Voucher), buildVoucher inv = some v →
      (r2 inv.igst_amount > 0 → r2 inv.cgst_amount + r2 inv.sgst_amount = 0) →
      (¬ r2 inv.igst_amount > 0 → r2 inv.igst_amount = 0) →
      (v.lines.map VoucherLine.amount).sum = 0 := by
  intro inv v hv h1 h2
  rw [buildVoucher_lines hv]
  simp only [List.map_cons, List.map_append, List.sum_cons, List.sum_append,
    taxLines_amount_sum, roundOffLines_amount_sum]
  by_cases hig : r2 inv.igst_amount > 0 <;>
    by_cases hro : debit_calc inv = r2 inv.total_invoice_value
  · have hcs := h1 hig
    rw [if_pos hig, if_pos hro]
    rw [debit_calc] at hro
    linarith
  · have hcs := h1 hig
    rw [if_pos hig, if_neg hro, debit_calc]
    linarith
  · have hz := h2 hig
    rw [if_neg hig, if_pos hro]
    rw [debit_calc] at hro
    linarith
  · have hz := h2 hig
    rw [if_neg hig, if_neg hro, debit_calc]
    linarith

unseal Rat.mul Rat.add Rat.inv Rat.sub in
/-- C1 (counterexample): a tax-mixed invoice with a parsing date produces a
voucher whose signed line amounts sum to 18 rather than zero: the igst
branch books only the igst line while debit_calc includes cgst and sgst. -/
theorem voucher_balance_counterexample :
    (buildVoucher invMixA).map (fun v => (v.lines.map VoucherLine.amount).sum) =
      some 18 ∧ (18 : ℚ) ≠ 0 := by
  decide

unseal Rat.mul Rat.add Rat.inv Rat.sub in
/-- C1 (witness): the amended balance theorem applied to a pure interstate
invoice. -/
theorem voucher_balance_witness :
    (vchPureA.lines.map VoucherLine.amount).sum = 0 :=
  voucher_balance invPureA vchPureA (by decide) (by decide) (by decide)

/-- C6: for every invoice with zero taxable value and a parsing date, the
Builder produces a voucher (no propagated fault) and the tax rate is
computed as zero through the explicit taxable-not-zero guard. -/
theorem zero_taxable_guard :
    ∀ inv : Invoice, inv.taxable_value = 0 →
      (parseDateField inv.date).isSome →
      (buildVoucher inv).isSome ∧ vchRate inv = 0 := by
  intro inv ht hp
  constructor
  · rw [buildVoucher]
    cases hpd : parseDateField inv.date with
    | none => rw [hpd] at hp; exact absurd hp (by simp)
    | some dmy =>
        obtain ⟨d, m, y⟩ := dmy
        rfl
  · have hz : r2 inv.taxable_value = 0 := by rw [ht, r2_zero]
    rw [vchRate]
    simp [hz]

unseal Rat.mul Rat.add Rat.inv Rat.sub in
/-- C6 (witness): the guard theorem applied to a concrete zero-taxable
invoice. -/
theorem zero_taxable_guard_witness :
    (buildVoucher invZeroTaxable).isSome ∧ vchRate invZeroTaxable = 0 :=
  zero_taxable_guard invZeroTaxable (by decide) (by decide)

/-- C7: if any invoice of the sequence has a date that fails the
day-month-year parse, the Voucher Builder produces no vouchers document at
all: the whole conversion fails and none of the accumulated output survives. -/
theorem bad_date_aborts :
    ∀ invoicesList : List Invoice,
      (∃ inv ∈ invoicesList, parseDateField inv.date = none) →
      generate_vouchers invoicesList = none := by
  intro l h
  induction l with
  | nil =>
      obtain ⟨inv, hmem, _⟩ := h
      cases hmem
  | cons hd tl ih =>
      obtain ⟨inv, hmem, hbad⟩ := h
      rcases List.mem_cons.mp hmem with rfl | htl
      · have hb : buildVoucher inv = none := by rw [buildVoucher, hbad]
        rw [generate_vouchers, hb]
      · have hrest := ih ⟨inv, htl, hbad⟩
        rw [generate_vouchers, hrest]
        cases hb : buildVoucher hd <;> rfl

unseal Rat.mul Rat.add Rat.inv Rat.sub in
/-- C7 (witness): a list with one well-formed invoice and one bad-date
invoice yields no vouchers document. -/
theorem bad_date_aborts_witness :
    generate_vouchers [invGoodDate, invBadDate] = none :=
  bad_date_aborts [invGoodDate, invBadDate]
    ⟨invBadDate, List.mem_cons_of_mem _ (List.mem_cons_self _ _), by decide⟩

/-- C9 (amended): a Round Off line is appended iff debit_calc differs from
the rounded invoice total; when present, the amount written on the line is
debit_calc minus total (the negation of the claimed total minus debit_calc),
and the deemed-positive flag is No exactly when total minus debit_calc is
positive. -/
theorem roundoff_line_spec :
    ∀ inv : Invoice,
      (roundOffLines inv = [] ↔ debit_calc inv = r2 inv.total_invoice_value) ∧
      (∀ l ∈ roundOffLines inv,
        l.ledgerName = "Round Off" ∧
        l.amount = debit_calc inv - r2 inv.total_invoice_value ∧
        l.isDeemedPositive =
          (if r2 inv.total_invoice_value - debit_calc inv > 0 then "No" else "Yes")) ∧
      (∀ v : Voucher, buildVoucher inv = some v →
        v.lines.drop (2 + (taxLines inv).length) = roundOffLines inv) := by
  intro inv
  refine ⟨?_, ?_, ?_⟩
  · by_cases h : debit_calc inv = r2 inv.total_invoice_value
    · rw [roundOffLines, if_neg (not_not_intro h)]
      simp [h]
    · rw [roundOffLines, if_pos h]
      simp [h]
  · intro l hl
    rw [roundOffLines] at hl
    by_cases h : debit_calc inv ≠ r2 inv.total_invoice_value
    · rw [if_pos h] at hl
      rcases List.mem_singleton.mp hl with rfl
      refine ⟨rfl, by ring, rfl⟩
    · rw [if_neg h] at hl
      cases hl
  · intro v hv
    rw [buildVoucher_lines hv,
      show 2 + (taxLines inv).length = (taxLines inv).length + 1 + 1 from by omega,
      List.drop_succ_cons, List.drop_succ_cons, List.drop_left]

unseal Rat.mul Rat.add Rat.inv Rat.sub in
/-- C9 (counterexample): on an invoice whose stated total exceeds its
components by one cent, the Round Off line carries amount -0.01, the
negation of total minus debit_calc (+0.01), refuting the claimed amount. -/
theorem roundoff_amount_sign_counterexample :
    (buildVoucher invResidue).map (fun v => v.lines.getLast?) =
      some (some { ledgerName := "Round Off", isDeemedPositive := "No",
                   amount := -(1/100), billAlloc := none }) ∧
    r2 invResidue.total_invoice_value - debit_calc invResidue = 1/100 ∧
    (-(1/100) : ℚ) ≠ 1/100 := by
  decide

unseal Rat.mul Rat.add Rat.inv Rat.sub in
/-- C9 (witness): the amended Round Off theorem applied to the residue
invoice. -/
theorem roundoff_line_spec_witness :
    roundOffLines invResidue ≠ [] ∧
    debit_calc invResidue ≠ r2 invResidue.total_invoice_value ∧
    vchResidue.lines.drop (2 + (taxLines invResidue).length) =
      roundOffLines invResidue := by
  refine ⟨?_, by decide, (roundoff_line_spec invResidue).2.2 vchResidue (by decide)⟩
  intro hempty
  exact absurd ((roundoff_line_spec invResidue).1.mp hempty) (by decide)

/-- C10: an invoice bearing no tax at all (igst, cgst, sgst all zero) with a
parsing date still yields a voucher whose second, third and fourth lines are
the purchase debit named Local Purchase 0 percent and the two tax debits
named Input CGST 0 percent and Input SGST 0 percent with amount zero, even
though the Planner registers nothing but the supplier ledger for it. -/
theorem zero_tax_voucher_lines :
    ∀ inv : Invoice,
      inv.igst_amount = 0 → inv.cgst_amount = 0 → inv.sgst_amount = 0 →
      (parseDateField inv.date).isSome →
      (buildVoucher inv).isSome ∧
      (buildVoucher inv).map (fun v => (v.lines.map VoucherLine.ledgerName).take 4) =
        some [pyStr inv.supplier_name, "Local Purchase 0%",
              "Input CGST 0%", "Input SGST 0%"] ∧
      (buildVoucher inv).map (fun v => (v.lines.map VoucherLine.amount).take 4) =
        some [r2 inv.total_invoice_value, -(r2 inv.taxable_value), 0, 0] ∧
      (∀ acc : List Ledger,
        planInvoice acc inv =
          create_ledger_elem acc inv.supplier_name "Sundry Creditors" false none) := by
  intro inv hig hcg hsg hp
  have hri : r2 inv.igst_amount = 0 := by rw [hig, r2_zero]
  have hrc : r2 inv.cgst_amount = 0 := by rw [hcg, r2_zero]
  have hrs : r2 inv.sgst_amount = 0 := by rw [hsg, r2_zero]
  have hrate : vchRate inv = 0 := by
    rw [vchRate]
    simp only [hri, hrc, hrs, add_zero]
    split_ifs with ht
    · rw [zero_div, zero_mul, rhe_zero]
    · rfl
  have hpl : purchase_ledger inv = "Local Purchase 0%" := by
    rw [purchase_ledger, if_neg (by rw [hri]; exact lt_irrefl 0), hrate]
    rfl
  have htl : taxLines inv =
      [{ ledgerName := "Input CGST 0%", isDeemedPositive := "Yes",
         amount := 0, billAlloc := none },
       { ledgerName := "Input SGST 0%", isDeemedPositive := "Yes",
         amount := 0, billAlloc := none }] := by
    rw [taxLines, if_neg (by rw [hri]; exact lt_irrefl 0), hrate, hrc, hrs]
    norm_num
    exact ⟨rfl, rfl⟩
  obtain ⟨dmy, hpd⟩ := Option.isSome_iff_exists.mp hp
  obtain ⟨d, m, y⟩ := dmy
  have hbv : buildVoucher inv = some
      { date := formatYMD y m d, referenceDate := formatYMD y m d,
        reference := pyStr inv.invoice_number,
        voucherNumber := pyStr inv.invoice_number,
        partyLedgerName := pyStr inv.supplier_name,
        lines :=
          { ledgerName := pyStr inv.supplier_name, isDeemedPositive := "No",
            amount := r2 inv.total_invoice_value,
            billAlloc := some (pyStr inv.invoice_number, r2 inv.total_invoice_value) } ::
          { ledgerName := purchase_ledger inv, isDeemedPositive := "Yes",
            amount := -(r2 inv.taxable_value), billAlloc := none } ::
          (taxLines inv ++ roundOffLines inv) } := by
    rw [buildVoucher, hpd]
  refine ⟨by rw [hbv]; rfl, ?_, ?_, ?_⟩
  · rw [hbv, hpl, htl]
    rfl
  · rw [hbv, htl]
    rfl
  · intro acc
    rw [planInvoice,
      if_neg (show ¬(inv.igst_amount > 0 ∧ inv.taxable_value > 0) by
        rw [hig]; rintro ⟨hcon, -⟩; exact lt_irrefl 0 hcon),
      if_neg (show ¬((inv.cgst_amount > 0 ∨ inv.sgst_amount > 0) ∧ inv.taxable_value > 0) by
        rw [hcg, hsg]; rintro ⟨hcon | hcon, -⟩ <;> exact lt_irrefl 0 hcon)]

unseal Rat.mul Rat.add Rat.inv Rat.sub in
/-- C10 (witness): the zero-tax theorem applied to a concrete untaxed
invoice, with the Planner instantiated on the empty accumulator. -/
theorem zero_tax_voucher_lines_witness :
    (buildVoucher invNoTax).isSome ∧
    (buildVoucher invNoTax).map (fun v => (v.lines.map VoucherLine.ledgerName).take 4) =
      some [pyStr invNoTax.supplier_name, "Local Purchase 0%",
            "Input CGST 0%", "Input SGST 0%"] ∧
    (buildVoucher invNoTax).map (fun v => (v.lines.map VoucherLine.amount).take 4) =
      some [r2 invNoTax.total_invoice_value, -(r2 invNoTax.taxable_value), 0, 0] ∧
    planInvoice [] invNoTax =
      create_ledger_elem [] invNoTax.supplier_name "Sundry Creditors" false none := by
  have h := zero_tax_voucher_lines invNoTax (by decide) (by decide) (by decide) (by decide)
  exact ⟨h.1, h.2.1, h.2.2.1, h.2.2.2 []⟩

/-! ### Extractor and order lemmas -/

theorem foldl_push {α β : Type} (f : α → β) (l : List α) :
    ∀ acc : List β, l.foldl (fun a x => a ++ [f x]) acc = acc ++ l.map f := by
  induction l with
  | nil => intro acc; simp
  | cons hd tl ih =>
      intro acc
      rw [List.foldl_cons, ih]
      simp

theorem process_flatMap_aux (rp : String) (ss : List Supplier) :
    ∀ acc : List Invoice,
      ss.foldl (fun acc s => s.inv.foldl (fun a i => a ++ [normInv rp s i]) acc) acc =
        acc ++ ss.flatMap (fun s => s.inv.map (normInv rp s)) := by
  induction ss with
  | nil => intro acc; simp
  | cons hd tl ih =>
      intro acc
      rw [List.foldl_cons, foldl_push, ih]
      simp

/-- C8: the Extractor emits one normalized invoice per raw invoice in exact
input traversal order (suppliers in document order, each suppliers invoices
in document order, concatenated), and the Voucher Builder emits exactly one
voucher per input invoice in that same order, keying each voucher number to
the invoice number with no deduplication even for duplicates. -/
theorem order_preservation :
    (∀ raw : RawFiling,
      process_gstr2b_logic raw =
        raw.b2b.flatMap (fun s => s.inv.map (normInv (raw.rtnprd.getD "N/A") s))) ∧
    (∀ (invoicesList : List Invoice) (vs : List Voucher),
      generate_vouchers invoicesList = some vs →
      vs.map Voucher.voucherNumber =
        invoicesList.map (fun i => pyStr i.invoice_number)) := by
  constructor
  · intro raw
    rw [process_gstr2b_logic, process_flatMap_aux]
    simp
  · intro l
    induction l with
    | nil =>
        intro vs h
        rw [generate_vouchers] at h
        obtain rfl := Option.some.inj h
        rfl
    | cons hd tl ih =>
        intro vs h
        rw [generate_vouchers] at h
        cases hb : buildVoucher hd with
        | none => rw [hb] at h; exact Option.noConfusion h
        | some v =>
            rw [hb] at h
            cases hr : generate_vouchers tl with
            | none => rw [hr] at h; exact Option.noConfusion h
            | some vs2 =>
                rw [hr] at h
                obtain rfl := Option.some.inj h
                simp only [List.map_cons]
                rw [buildVoucher_voucherNumber hb, ih vs2 hr]

unseal Rat.mul Rat.add Rat.inv Rat.sub in
/-- C8 (witness): on a filing with two suppliers and a duplicated invoice
number, the voucher numbers equal the extracted invoice numbers in order. -/
theorem order_preservation_witness :
    vouchersW.map Voucher.voucherNumber =
      invoicesW.map (fun i => pyStr i.invoice_number) :=
  order_preservation.2 invoicesW vouchersW (by decide)

end Gstr2b

namespace Gstr2b

unseal Rat.mul Rat.add Rat.inv Rat.sub in
/-- C5: the monetary rounding function r2 rounds to a multiple of one
hundredth, lands within half a cent of its input (nearest), sends every exact
half-cent tie away from zero, and in particular maps 1.005 to 1.01 and 2.675
to 2.68 rather than the banker-rounding results. -/
theorem r2_round_half_up_spec :
    r2 (1005/1000) = 101/100 ∧ r2 (2675/1000) = 67/25 ∧
    (∀ q : ℚ, ∃ n : ℤ, r2 q = (n : ℚ)/100) ∧
    (∀ q : ℚ, |q - r2 q| ≤ 1/200) ∧
    (∀ k : ℤ, r2 (((2*k+1 : ℤ) : ℚ)/200) =
      if 0 ≤ k then ((k : ℚ)+1)/100 else (k : ℚ)/100) := by
  refine ⟨by decide, by decide, fun q => ⟨roundHalfAway (q * 100), rfl⟩, fun q => ?_, fun k => ?_⟩
  · have hn := roundHalfAway_nearest (q * 100)
    have key : q - r2 q = (q * 100 - (roundHalfAway (q * 100) : ℚ))/100 := by
      rw [r2]; ring
    rw [key, abs_div]
    have h100 : |(100 : ℚ)| = 100 := by norm_num
    rw [h100]
    linarith
  · have harg : ((2*(k : ℚ)+1)/200) * 100 = (k : ℚ) + 1/2 := by ring
    by_cases hk : 0 ≤ k
    · have hkq : (0 : ℚ) ≤ (k : ℚ) := by exact_mod_cast hk
      rw [if_pos hk, r2, roundHalfAway]
      push_cast
      rw [harg, if_pos (by linarith)]
      have : (k : ℚ) + 1/2 + 1/2 = ((k + 1 : ℤ) : ℚ) := by push_cast; ring
      rw [this, Int.floor_intCast]
      push_cast
      ring
    · have hk1 : k ≤ -1 := by omega
      have hkq : (k : ℚ) ≤ -1 := by exact_mod_cast hk1
      rw [if_neg hk, r2, roundHalfAway]
      push_cast
      rw [harg, if_neg (by intro hcon; linarith)]
      have : -((k : ℚ) + 1/2) + 1/2 = ((-k : ℤ) : ℚ) := by push_cast; ring
      rw [this, Int.floor_intCast]
      push_cast
      ring

end Gstr2b
